import Mathlib

/-!
Shallow embedding of the HotelStay demo server (`server/app.py`).

The server exposes one query tool, `explore_stays`, over a list of stay
records loaded from a JSON file, plus an asset-lookup helper
`find_built_asset` for the widget resource.

Records are JSON objects; the engine touches only the fields `id`, `city`,
`rating` and `price_per_night`, each of which may be absent (Python raises
`KeyError` on `s["city"]` / `s["id"]` when absent, while `s.get(k, 0)`
defaults to 0).  Numeric JSON values are modelled as rationals.  Python's
`list.sort` is a stable sort; since a stable sort with respect to a total
preorder is unique, we embed it as `List.insertionSort`, which Mathlib
proves stable and sorted.
-/

deriving instance DecidableEq for Except

namespace HotelStay

/-- Python `str.lower()`: lower-case every character. -/
def pyLower (s : String) : String := ⟨s.data.map Char.toLower⟩

/-- Python `str.strip()`: drop leading and trailing whitespace. -/
def pyStrip (s : String) : String :=
  ⟨((s.data.dropWhile Char.isWhitespace).reverse.dropWhile
      Char.isWhitespace).reverse⟩

/-- Python `str.endswith(suffix)` (this is what matching the glob pattern
`*{suffix}` requires of a filename). -/
def strEnds (s suffix : String) : Bool := suffix.data.isSuffixOf s.data

/-- A stay record: the four interpreted fields, each possibly absent, plus
opaque passthrough data that the engine never reads. -/
structure Stay where
  id : Option String
  city : Option String
  rating : Option ℚ
  price_per_night : Option ℚ
  extra : List (String × String) := []
deriving DecidableEq, Repr

/-- The `sort` parameter: `Literal["rating", "price"]`. -/
inductive SortKey
  | rating
  | price
deriving DecidableEq, Repr

/-- Errors a request can surface: `KeyError` from a missing mandatory field,
`DataUnavailable` from an unreadable or unparsable dataset source. -/
inductive Err
  | keyError
  | dataUnavailable
deriving DecidableEq, Repr

/-- The `structured` dict built by `explore_stays`: normalized city, the
filtered and sorted results, the optional selection, and the echoed
`applied_filters` (`min_rating` and `sort`). -/
structure QueryResult where
  city : String
  results : List Stay
  selected : Option Stay
  applied_min_rating : Option ℚ
  applied_sort : SortKey
deriving DecidableEq, Repr

/-- The `ToolResult`: human-readable summary text plus structured content. -/
structure ToolResult where
  summary : String
  structured : QueryResult
deriving DecidableEq, Repr

/-- The city test applied to one record:
`s["city"].lower() == city_norm` (`false` is never reached when the field is
absent, because access raises first — see `cityFilter`). -/
def cityMatches (cn : String) (s : Stay) : Bool :=
  match s.city with
  | some c => pyLower c == cn
  | none => false

/-- `[s for s in stays if s["city"].lower() == city_norm]`: the comprehension
evaluates `s["city"]` on every record, so a record without a `city` field
raises `KeyError` rather than being skipped. -/
def cityFilter (cn : String) : List Stay → Except Err (List Stay)
  | [] => .ok []
  | s :: rest =>
    match s.city with
    | none => .error .keyError
    | some c =>
      match cityFilter cn rest with
      | .error e => .error e
      | .ok rest' => .ok (if pyLower c == cn then s :: rest' else rest')

/-- `if min_rating is not None: filtered = [s for s in filtered if
float(s.get("rating", 0)) >= float(min_rating)]`. -/
def applyMinRating (mr : Option ℚ) (l : List Stay) : List Stay :=
  match mr with
  | none => l
  | some r => l.filter (fun s => decide (r ≤ s.rating.getD 0))

/-- The sort key `s.get(key, 0)` for the chosen sort parameter. -/
def sortKeyOf : SortKey → Stay → ℚ
  | .rating, s => s.rating.getD 0
  | .price, s => s.price_per_night.getD 0

/-- The total preorder realised by `filtered.sort(key=..., reverse=...)`:
descending by rating when `sort == "rating"` (`reverse=True`), ascending by
price-per-night when `sort == "price"`. -/
def staysLE : SortKey → Stay → Stay → Prop
  | .rating, a, b => sortKeyOf .rating b ≤ sortKeyOf .rating a
  | .price, a, b => sortKeyOf .price a ≤ sortKeyOf .price b

instance staysLE.decRel : (k : SortKey) → DecidableRel (staysLE k)
  | .rating, _, _ => inferInstanceAs (Decidable (_ ≤ _))
  | .price, _, _ => inferInstanceAs (Decidable (_ ≤ _))

instance staysLE.total (k : SortKey) : IsTotal Stay (staysLE k) where
  total a b := by cases k <;> exact le_total _ _

instance staysLE.trans (k : SortKey) : IsTrans Stay (staysLE k) where
  trans a b c hab hbc := by
    cases k
    · exact le_trans hbc hab
    · exact le_trans hab hbc

/-- `filtered.sort(key=lambda s: s.get(key, 0), reverse=reverse)`: Python's
stable in-place sort, embedded as the (unique) stable sort for `staysLE`. -/
def sortStays (k : SortKey) (l : List Stay) : List Stay :=
  l.insertionSort (staysLE k)

/-- The membership test `s["id"] == selected_id` for one record (a record
without an `id` field raises before comparing — see `scanSelect`). -/
def idMatches (i : String) (s : Stay) : Bool :=
  match s.id with
  | some j => j == i
  | none => false

/-- `for s in filtered: if s["id"] == selected_id: selected = s; break` —
scans in order, raising `KeyError` on a record without `id` encountered
before any match, and stopping at the first match. -/
def scanSelect (i : String) : List Stay → Except Err (Option Stay)
  | [] => .ok none
  | s :: rest =>
    match s.id with
    | none => .error .keyError
    | some j => if j == i then .ok (some s) else scanSelect i rest

/-- Assembles the `ToolResult`: the summary f-string
`f"Found {len(filtered)} stays in {city.strip()}."` and the structured dict
(note `"city": city.strip()` — trimmed but not lower-cased). -/
def mkToolResult (city : String) (mr : Option ℚ) (sort : SortKey)
    (sorted : List Stay) (selected : Option Stay) : ToolResult :=
  { summary := "Found " ++ toString sorted.length ++ " stays in " ++
      pyStrip city ++ "."
    structured :=
      { city := pyStrip city
        results := sorted
        selected := selected
        applied_min_rating := mr
        applied_sort := sort } }

/-- The query engine body of `explore_stays`, acting on the loaded dataset:
normalize the city, filter by city, filter by optional `min_rating`,
stable-sort, then scan for `selected_id` — Python's `if selected_id:` treats
both `None` and the empty string as absent. -/
def explore_stays (stays : List Stay) (city : String) (min_rating : Option ℚ)
    (sort : SortKey) (selected_id : Option String) : Except Err ToolResult :=
  match cityFilter (pyLower (pyStrip city)) stays with
  | .error e => .error e
  | .ok filtered0 =>
    let sorted := sortStays sort (applyMinRating min_rating filtered0)
    match (match selected_id with
           | some i =>
             if i == "" then Except.ok (none : Option Stay)
             else scanSelect i sorted
           | none => Except.ok (none : Option Stay)) with
    | .error e => .error e
    | .ok selected => .ok (mkToolResult city min_rating sort sorted selected)

/-- `load_stays`: `json.loads(DATA_PATH.read_text(...))`.  The file system
and the JSON codec are outside the embedded program, so the source is an
optional text (absent when unreadable) and `parse` is the JSON decoder
(returning `none` on unparsable text); either failure is the
`DataUnavailable` condition. -/
def load_stays (parse : String → Option (List Stay)) (source : Option String) :
    Except Err (List Stay) :=
  match source with
  | none => .error .dataUnavailable
  | some txt =>
    match parse txt with
    | none => .error .dataUnavailable
    | some stays => .ok stays

/-- `explore_stays` as called over the wire: first `load_stays()`, then the
query engine; a load failure aborts the request with no partial result. -/
def explore_stays_full (parse : String → Option (List Stay))
    (source : Option String) (city : String) (min_rating : Option ℚ)
    (sort : SortKey) (selected_id : Option String) : Except Err ToolResult :=
  match load_stays parse source with
  | .error e => .error e
  | .ok stays => explore_stays stays city min_rating sort selected_id

/-- A file in the built-assets directory: name, modification time, text. -/
structure AssetFile where
  name : String
  mtime : Nat
  content : String
deriving DecidableEq, Repr

/-- The widget asset error (`FileNotFoundError` in the source). -/
inductive AssetErr
  | assetNotFound
deriving DecidableEq, Repr

/-- Python's string ordering on the underlying character sequences:
lexicographic comparison of code points (`sorted()` on path strings with a
common directory prefix orders by exactly this on the filenames). -/
def charListLE : List Char → List Char → Bool
  | [], _ => true
  | _ :: _, [] => false
  | a :: as, b :: bs =>
    if a.toNat < b.toNat then true
    else if b.toNat < a.toNat then false
    else charListLE as bs

/-- Python `s <= t` on strings. -/
def strLE (s t : String) : Bool := charListLE s.data t.data

/-- The order `sorted(...)` uses on the candidate files. -/
def assetNameLE (a b : AssetFile) : Prop := strLE a.name b.name = true

instance : DecidableRel assetNameLE := fun _ _ =>
  inferInstanceAs (Decidable (_ = _))

/-- The order used by the spec-side most-recent reading: modification time. -/
def assetMtimeLE (a b : AssetFile) : Prop := a.mtime ≤ b.mtime

instance : DecidableRel assetMtimeLE := fun _ _ =>
  inferInstanceAs (Decidable (_ ≤ _))

/-- `find_built_asset`: `candidates = sorted(assets_dir.glob(f"*{suffix}"))`,
raise if empty, else `candidates[-1].read_text(...)` — the matching file
whose NAME is lexicographically last, irrespective of modification time. -/
def find_built_asset (dir : List AssetFile) (suffix : String) :
    Except AssetErr String :=
  let candidates :=
    (dir.filter (fun f => strEnds f.name suffix)).insertionSort assetNameLE
  match candidates.getLast? with
  | none => .error .assetNotFound
  | some f => .ok f.content

/-- Modelled from the spec: "locate the most recent matching built asset …,
read it as text" — the matching file with the greatest modification time.
Stated only to compare with what `find_built_asset` actually computes. -/
def find_built_asset_by_mtime (dir : List AssetFile) (suffix : String) :
    Except AssetErr String :=
  let candidates :=
    (dir.filter (fun f => strEnds f.name suffix)).insertionSort assetMtimeLE
  match candidates.getLast? with
  | none => .error .assetNotFound
  | some f => .ok f.content

/-! ### Helper lemmas about the filtering and scanning passes -/

lemma cityFilter_ok_eq {cn : String} {l f : List Stay}
    (h : cityFilter cn l = .ok f) : f = l.filter (cityMatches cn) := by
  induction l generalizing f with
  | nil =>
    simp only [cityFilter, Except.ok.injEq] at h
    simp [← h]
  | cons s rest ih =>
    simp only [cityFilter] at h
    cases hc : s.city with
    | none => rw [hc] at h; cases h
    | some c =>
      rw [hc] at h
      cases hr : cityFilter cn rest with
      | error e => rw [hr] at h; cases h
      | ok rest' =>
        rw [hr] at h
        simp only [Except.ok.injEq] at h
        rw [← h, ih hr, List.filter_cons]
        simp [cityMatches, hc]

lemma cityFilter_ok_of_forall {cn : String} {l : List Stay}
    (h : ∀ s ∈ l, s.city ≠ none) :
    cityFilter cn l = .ok (l.filter (cityMatches cn)) := by
  induction l with
  | nil => simp [cityFilter]
  | cons s rest ih =>
    cases hc : s.city with
    | none => exact absurd hc (h s (List.mem_cons_self s rest))
    | some c =>
      have hrest := ih fun x hx => h x (List.mem_cons_of_mem s hx)
      simp only [cityFilter, hc, hrest, List.filter_cons]
      simp [cityMatches, hc]

lemma cityFilter_error_of_mem {cn : String} {l : List Stay} {s : Stay}
    (hs : s ∈ l) (hnone : s.city = none) :
    cityFilter cn l = .error .keyError := by
  induction l with
  | nil => cases hs
  | cons a rest ih =>
    rcases List.mem_cons.mp hs with rfl | hmem
    · simp [cityFilter, hnone]
    · cases ha : a.city with
      | none => simp [cityFilter, ha]
      | some c => simp [cityFilter, ha, ih hmem]

lemma scanSelect_ok_eq {i : String} {l : List Stay} {o : Option Stay}
    (h : scanSelect i l = .ok o) : o = l.find? (idMatches i) := by
  induction l generalizing o with
  | nil =>
    simp only [scanSelect, Except.ok.injEq] at h
    simp [← h]
  | cons s rest ih =>
    cases hid : s.id with
    | none => simp [scanSelect, hid] at h
    | some j =>
      by_cases hj : (j == i) = true
      · simp only [scanSelect, hid, if_pos hj, Except.ok.injEq] at h
        rw [← h, List.find?_cons_of_pos rest (by simp [idMatches, hid, hj])]
      · simp only [scanSelect, hid, if_neg hj] at h
        rw [ih h, List.find?_cons_of_neg rest (by simp [idMatches, hid, hj])]

lemma scanSelect_ok_of_forall {i : String} {l : List Stay}
    (h : ∀ s ∈ l, s.id ≠ none) :
    scanSelect i l = .ok (l.find? (idMatches i)) := by
  induction l with
  | nil => simp [scanSelect]
  | cons s rest ih =>
    cases hid : s.id with
    | none => exact absurd hid (h s (List.mem_cons_self s rest))
    | some j =>
      have hrest := ih fun x hx => h x (List.mem_cons_of_mem s hx)
      by_cases hj : (j == i) = true
      · rw [List.find?_cons_of_pos rest (by simp [idMatches, hid, hj])]
        simp [scanSelect, hid, hj]
      · rw [List.find?_cons_of_neg rest (by simp [idMatches, hid, hj])]
        simp [scanSelect, hid, hj, hrest]

/-! ### Helper lemmas about the stable sort -/

lemma sortStays_perm (k : SortKey) (l : List Stay) :
    List.Perm (sortStays k l) l :=
  List.perm_insertionSort _ l

lemma mem_sortStays {k : SortKey} {l : List Stay} {s : Stay} :
    s ∈ sortStays k l ↔ s ∈ l :=
  List.mem_insertionSort (staysLE k)

lemma sortStays_sorted (k : SortKey) (l : List Stay) :
    (sortStays k l).Pairwise (staysLE k) :=
  List.sorted_insertionSort _ l

lemma filter_sortStays {k : SortKey} {p : Stay → Bool}
    (hp : ∀ a b, p a = true → p b = true → staysLE k a b) (l : List Stay) :
    (sortStays k l).filter p = l.filter p := by
  have hpw : (l.filter p).Pairwise (staysLE k) := by
    induction l with
    | nil => simp
    | cons a t ih =>
      by_cases ha : p a
      · rw [List.filter_cons_of_pos ha]
        exact List.Pairwise.cons
          (fun b hb => hp a b ha (List.of_mem_filter hb)) ih
      · rw [List.filter_cons_of_neg (by simpa using ha)]
        exact ih
  have hsub : List.Sublist (l.filter p) (sortStays k l) :=
    List.sublist_insertionSort hpw (List.filter_sublist l)
  have h1 : List.Sublist (l.filter p) ((sortStays k l).filter p) := by
    have h2 := hsub.filter p
    rwa [List.filter_filter, show (fun a => p a && p a) = p from
      funext fun a => Bool.and_self (p a)] at h2
  have hlen : ((sortStays k l).filter p).length = (l.filter p).length :=
    ((sortStays_perm k l).filter p).length_eq
  exact (h1.eq_of_length hlen.symm).symm

/-! ### Inversion of a successful `explore_stays` call -/

lemma explore_ok_inv {stays : List Stay} {city : String} {mr : Option ℚ}
    {sort : SortKey} {sid : Option String} {t : ToolResult}
    (h : explore_stays stays city mr sort sid = .ok t) :
    t.structured.results =
      sortStays sort
        (applyMinRating mr (stays.filter (cityMatches (pyLower (pyStrip city))))) ∧
    t.structured.city = pyStrip city ∧
    t.structured.applied_min_rating = mr ∧
    t.structured.applied_sort = sort ∧
    t.summary = "Found " ++ toString t.structured.results.length ++
      " stays in " ++ pyStrip city ++ "." := by
  simp only [explore_stays] at h
  split at h
  · cases h
  · next f0 hc =>
    split at h
    · cases h
    · next sel hsel =>
      simp only [Except.ok.injEq] at h
      rw [← h, cityFilter_ok_eq hc]
      simp [mkToolResult]

lemma mem_applyMinRating {mr : Option ℚ} {l : List Stay} {s : Stay}
    (h : s ∈ applyMinRating mr l) : s ∈ l := by
  cases mr with
  | none => exact h
  | some r => exact List.mem_of_mem_filter h

lemma explore_ok_selected {stays : List Stay} {city : String} {mr : Option ℚ}
    {sort : SortKey} {i : String} {t : ToolResult} (hi : i ≠ "")
    (h : explore_stays stays city mr sort (some i) = .ok t) :
    t.structured.selected = t.structured.results.find? (idMatches i) := by
  have hi' : (i == "") = false := beq_eq_false_iff_ne.mpr hi
  simp only [explore_stays, hi', Bool.false_eq_true, if_false] at h
  split at h
  · cases h
  · next f0 hc =>
    split at h
    · cases h
    · next sel hsel =>
      simp only [Except.ok.injEq] at h
      rw [← h]
      simp only [mkToolResult]
      exact scanSelect_ok_eq hsel

lemma explore_ok_selected_none {stays : List Stay} {city : String}
    {mr : Option ℚ} {sort : SortKey} {t : ToolResult}
    (h : explore_stays stays city mr sort none = .ok t) :
    t.structured.selected = none := by
  simp only [explore_stays] at h
  split at h
  · cases h
  · next f0 hc =>
    simp only [Except.ok.injEq] at h
    rw [← h]
    rfl

lemma explore_ok_of_wf {stays : List Stay} {city : String} {mr : Option ℚ}
    {sort : SortKey} {sid : Option String}
    (hcity : ∀ s ∈ stays, s.city ≠ none)
    (hid : ∀ i, sid = some i →
      ∀ s ∈ sortStays sort (applyMinRating mr
        (stays.filter (cityMatches (pyLower (pyStrip city))))), s.id ≠ none) :
    ∃ t, explore_stays stays city mr sort sid = .ok t := by
  have hc := @cityFilter_ok_of_forall (pyLower (pyStrip city)) stays hcity
  cases sid with
  | none =>
    refine ⟨mkToolResult city mr sort (sortStays sort (applyMinRating mr
      (stays.filter (cityMatches (pyLower (pyStrip city)))))) none, ?_⟩
    simp [explore_stays, hc]
  | some i =>
    by_cases hi : (i == "") = true
    · refine ⟨mkToolResult city mr sort (sortStays sort (applyMinRating mr
        (stays.filter (cityMatches (pyLower (pyStrip city)))))) none, ?_⟩
      simp [explore_stays, hc, hi]
    · have hscan := @scanSelect_ok_of_forall i _ (hid i rfl)
      refine ⟨mkToolResult city mr sort (sortStays sort (applyMinRating mr
        (stays.filter (cityMatches (pyLower (pyStrip city))))))
        ((sortStays sort (applyMinRating mr
          (stays.filter (cityMatches (pyLower (pyStrip city)))))).find?
          (idMatches i)), ?_⟩
      simp [explore_stays, hc, hi, hscan]

lemma cityMatches_iff {cn : String} {s : Stay} :
    cityMatches cn s = true ↔ ∃ c, s.city = some c ∧ pyLower c = cn := by
  unfold cityMatches
  cases hc : s.city with
  | none => simp
  | some c => simp

lemma idMatches_iff {i : String} {s : Stay} :
    idMatches i s = true ↔ s.id = some i := by
  unfold idMatches
  cases hid : s.id with
  | none => simp
  | some j => simp

lemma charListLE_total : ∀ (as bs : List Char),
    charListLE as bs = true ∨ charListLE bs as = true
  | [], _ => Or.inl rfl
  | _ :: _, [] => Or.inr rfl
  | a :: as, b :: bs => by
    rcases Nat.lt_trichotomy a.toNat b.toNat with h | h | h
    · left; simp [charListLE, h]
    · rcases charListLE_total as bs with ih | ih
      · left; simp [charListLE, h, ih]
      · right; simp [charListLE, h, ih]
    · right; simp [charListLE, h]

lemma charListLE_trans : ∀ (as bs cs : List Char),
    charListLE as bs = true → charListLE bs cs = true →
    charListLE as cs = true
  | [], _, _, _, _ => rfl
  | _ :: _, [], _, h1, _ => by simp [charListLE] at h1
  | _ :: _, _ :: _, [], _, h2 => by simp [charListLE] at h2
  | a :: as, b :: bs, c :: cs, h1, h2 => by
    simp only [charListLE] at h1 h2 ⊢
    rcases Nat.lt_trichotomy a.toNat c.toNat with hac | hac | hac
    · simp [hac]
    · rw [if_neg (by omega), if_neg (by omega)]
      rcases Nat.lt_trichotomy a.toNat b.toNat with hab | hab | hab
      · rw [if_neg (by omega), if_pos (by omega)] at h2; cases h2
      · rw [if_neg (by omega), if_neg (by omega)] at h1
        rw [if_neg (by omega), if_neg (by omega)] at h2
        exact charListLE_trans as bs cs h1 h2
      · rw [if_neg (by omega), if_pos (by omega)] at h1; cases h1
    · rcases Nat.lt_trichotomy a.toNat b.toNat with hab | hab | hab
      · rw [if_neg (by omega), if_pos (by omega)] at h2; cases h2
      · rw [if_neg (by omega), if_pos (by omega)] at h2; cases h2
      · rw [if_neg (by omega), if_pos (by omega)] at h1; cases h1

lemma charListLE_refl : ∀ (as : List Char), charListLE as as = true
  | [] => rfl
  | a :: as => by simp [charListLE, charListLE_refl as]

instance : IsTotal AssetFile assetNameLE :=
  ⟨fun a b => charListLE_total a.name.data b.name.data⟩

instance : IsTrans AssetFile assetNameLE :=
  ⟨fun _ _ _ => charListLE_trans _ _ _⟩

instance : IsTotal AssetFile assetMtimeLE := ⟨fun _ _ => Nat.le_total _ _⟩

instance : IsTrans AssetFile assetMtimeLE := ⟨fun _ _ _ => Nat.le_trans⟩

/-- In a `Pairwise R` list with `R` reflexive, the last element is an upper
bound for every member. -/
lemma pairwise_rel_getLast {α : Type} {R : α → α → Prop}
    (hrefl : ∀ a, R a a) :
    ∀ {l : List α} {f : α}, l.Pairwise R → l.getLast? = some f →
      ∀ g ∈ l, R g f := by
  intro l
  induction l with
  | nil => intro f _ hlast; cases hlast
  | cons a rest ih =>
    intro f hpw hlast g hg
    cases rest with
    | nil =>
      simp only [List.getLast?_singleton, Option.some.injEq] at hlast
      rcases List.mem_singleton.mp hg with rfl
      rw [← hlast]
      exact hrefl g
    | cons b rest' =>
      rw [List.getLast?_cons_cons] at hlast
      rcases List.mem_cons.mp hg with rfl | hg'
      · exact (List.pairwise_cons.mp hpw).1 f
          (List.mem_of_getLast?_eq_some hlast)
      · exact ih (List.pairwise_cons.mp hpw).2 hlast g hg'

/-! ### The claims -/

/-- Claim C1: for every dataset and city string, every record returned by
`explore_stays` has a `city` field that, lower-cased, equals the trimmed and
lower-cased input city (for any `min_rating`), and — when no `min_rating`
filter is supplied — the results contain exactly the records of the dataset
satisfying that condition: case-insensitive exact match, nothing excluded. -/
theorem claim_C1_city_filter (stays : List Stay) (city : String)
    (sort : SortKey) (sid : Option String) :
    (∀ mr t, explore_stays stays city mr sort sid = .ok t →
      ∀ s ∈ t.structured.results,
        ∃ c, s.city = some c ∧ pyLower c = pyLower (pyStrip city)) ∧
    (∀ t, explore_stays stays city none sort sid = .ok t →
      ∀ s, s ∈ t.structured.results ↔
        (s ∈ stays ∧
          ∃ c, s.city = some c ∧ pyLower c = pyLower (pyStrip city))) := by
  constructor
  · intro mr t h s hs
    rw [(explore_ok_inv h).1] at hs
    exact cityMatches_iff.mp
      (List.of_mem_filter (mem_applyMinRating (mem_sortStays.mp hs)))
  · intro t h s
    rw [(explore_ok_inv h).1]
    show s ∈ sortStays sort (stays.filter (cityMatches (pyLower (pyStrip city)))) ↔ _
    rw [mem_sortStays, List.mem_filter, cityMatches_iff]

/-- Claim C1, instantiated at a concrete call. -/
theorem claim_C1_city_filter_witness :
    (⟨some "a", some "Paris", none, none, []⟩ : Stay) ∈
      (mkToolResult "Paris" none SortKey.rating
        [⟨some "a", some "Paris", none, none, []⟩] none).structured.results ↔
    ((⟨some "a", some "Paris", none, none, []⟩ : Stay) ∈
        [(⟨some "a", some "Paris", none, none, []⟩ : Stay)] ∧
      ∃ c, (⟨some "a", some "Paris", none, none, []⟩ : Stay).city = some c ∧
        pyLower c = pyLower (pyStrip "Paris")) :=
  (claim_C1_city_filter [⟨some "a", some "Paris", none, none, []⟩] "Paris"
    SortKey.rating none).2 _ rfl _

/-- Claim C2: with `sort = "rating"` the results are non-increasing in
`rating` (missing treated as 0); with `sort = "price"` non-decreasing in
`price_per_night` (missing treated as 0); and for either key, records whose
sort key equals any fixed value appear in exactly the relative order they
had in the dataset (stability): the results restricted to one key value
coincide with the city- and rating-filtered dataset restricted to it. -/
theorem claim_C2_sorting (stays : List Stay) (city : String) (mr : Option ℚ)
    (sid : Option String) :
    (∀ t, explore_stays stays city mr SortKey.rating sid = .ok t →
      t.structured.results.Pairwise
        (fun a b => b.rating.getD 0 ≤ a.rating.getD 0)) ∧
    (∀ t, explore_stays stays city mr SortKey.price sid = .ok t →
      t.structured.results.Pairwise
        (fun a b => a.price_per_night.getD 0 ≤ b.price_per_night.getD 0)) ∧
    (∀ sort t (v : ℚ), explore_stays stays city mr sort sid = .ok t →
      t.structured.results.filter (fun s => decide (sortKeyOf sort s = v)) =
        (applyMinRating mr
            (stays.filter (cityMatches (pyLower (pyStrip city))))).filter
          (fun s => decide (sortKeyOf sort s = v))) := by
  refine ⟨?_, ?_, ?_⟩
  · intro t h
    rw [(explore_ok_inv h).1]
    exact sortStays_sorted SortKey.rating _
  · intro t h
    rw [(explore_ok_inv h).1]
    exact sortStays_sorted SortKey.price _
  · intro sort t v h
    rw [(explore_ok_inv h).1]
    refine filter_sortStays (fun a b ha hb => ?_) _
    have ha' : sortKeyOf sort a = v := of_decide_eq_true ha
    have hb' : sortKeyOf sort b = v := of_decide_eq_true hb
    cases sort
    · show sortKeyOf SortKey.rating b ≤ sortKeyOf SortKey.rating a
      rw [ha', hb']
    · show sortKeyOf SortKey.price a ≤ sortKeyOf SortKey.price b
      rw [ha', hb']

/-- Claim C2, instantiated at a concrete call ordered by descending rating. -/
theorem claim_C2_sorting_witness :
    (mkToolResult "paris" none SortKey.rating
      [⟨some "b", some "paris", some 5, some 80, []⟩,
       ⟨some "a", some "paris", some 3, some 120, []⟩]
      none).structured.results.Pairwise
        (fun a b => b.rating.getD 0 ≤ a.rating.getD 0) :=
  (claim_C2_sorting
    [⟨some "a", some "paris", some 3, some 120, []⟩,
     ⟨some "b", some "paris", some 5, some 80, []⟩]
    "paris" none none).1 _ rfl

/-- Claim C3: when `min_rating = r` is supplied, every returned record has
`rating ≥ r` (missing rating treated as 0), and every record of the dataset
that matches the city and has `rating ≥ r` is returned; when `min_rating` is
absent, no rating filtering occurs — the results are exactly the stable sort
of the city-matching records. -/
theorem claim_C3_min_rating (stays : List Stay) (city : String)
    (sort : SortKey) (sid : Option String) :
    (∀ (r : ℚ) t, explore_stays stays city (some r) sort sid = .ok t →
      (∀ s ∈ t.structured.results, r ≤ s.rating.getD 0) ∧
      (∀ s ∈ stays, cityMatches (pyLower (pyStrip city)) s = true →
        r ≤ s.rating.getD 0 → s ∈ t.structured.results)) ∧
    (∀ t, explore_stays stays city none sort sid = .ok t →
      t.structured.results =
        sortStays sort (stays.filter (cityMatches (pyLower (pyStrip city))))) := by
  constructor
  · intro r t h
    have hres := (explore_ok_inv h).1
    simp only [applyMinRating] at hres
    constructor
    · intro s hs
      rw [hres] at hs
      have hs1 := (List.mem_filter.mp (mem_sortStays.mp hs)).2
      exact of_decide_eq_true hs1
    · intro s hstay hcity hrate
      rw [hres, mem_sortStays]
      exact List.mem_filter.mpr
        ⟨List.mem_filter.mpr ⟨hstay, hcity⟩, decide_eq_true hrate⟩
  · intro t h
    have hres := (explore_ok_inv h).1
    simp only [applyMinRating] at hres
    exact hres

/-- Claim C3, instantiated at a concrete call: with `min_rating = 4`, the
lower-rated record is filtered out and the qualifying one kept. -/
theorem claim_C3_min_rating_witness :
    (∀ s ∈ (mkToolResult "paris" (some 4) SortKey.price
        [⟨some "b", some "paris", some 5, some 80, []⟩]
        none).structured.results, (4 : ℚ) ≤ s.rating.getD 0) ∧
    (∀ s ∈ [(⟨some "a", some "paris", some 3, some 120, []⟩ : Stay),
        ⟨some "b", some "paris", some 5, some 80, []⟩],
      cityMatches (pyLower (pyStrip "paris")) s = true →
      (4 : ℚ) ≤ s.rating.getD 0 →
      s ∈ (mkToolResult "paris" (some 4) SortKey.price
        [⟨some "b", some "paris", some 5, some 80, []⟩]
        none).structured.results) :=
  (claim_C3_min_rating
    [⟨some "a", some "paris", some 3, some 120, []⟩,
     ⟨some "b", some "paris", some 5, some 80, []⟩]
    "paris" SortKey.price none).1 4 _ rfl

/-- Claim C4 as stated is false at this input: `selected_id` is present
(`some ""`) and the single filtered result has id `""`, yet `selected` is
absent, because `if selected_id:` treats the empty string as absent. -/
theorem claim_C4_counterexample :
    explore_stays [⟨some "", some "paris", none, none, []⟩] "paris"
        none SortKey.rating (some "") =
      .ok (mkToolResult "paris" none SortKey.rating
        [⟨some "", some "paris", none, none, []⟩] none) ∧
    (mkToolResult "paris" none SortKey.rating
        [⟨some "", some "paris", none, none, []⟩]
        none).structured.results.find? (idMatches "") =
      some ⟨some "", some "paris", none, none, []⟩ ∧
    (mkToolResult "paris" none SortKey.rating
        [⟨some "", some "paris", none, none, []⟩]
        none).structured.selected = none :=
  ⟨rfl, rfl, rfl⟩

/-- Claim C4 (amended): for `selected_id` present and NON-EMPTY, `selected`
is the first record of the post-sort filtered results whose id equals it,
and is absent when no result carries that id — without an error. -/
theorem claim_C4_selection (stays : List Stay) (city : String)
    (mr : Option ℚ) (sort : SortKey) (i : String) (t : ToolResult)
    (hi : i ≠ "")
    (h : explore_stays stays city mr sort (some i) = .ok t) :
    t.structured.selected = t.structured.results.find? (idMatches i) ∧
    ((∀ s ∈ t.structured.results, s.id ≠ some i) →
      t.structured.selected = none) := by
  have h1 := explore_ok_selected hi h
  refine ⟨h1, fun hall => ?_⟩
  rw [h1, List.find?_eq_none]
  intro s hs hmatch
  exact hall s hs (idMatches_iff.mp hmatch)

/-- Claim C4 (amended), instantiated at a concrete call. -/
theorem claim_C4_selection_witness :
    (mkToolResult "paris" none SortKey.rating
        [⟨some "a", some "paris", none, none, []⟩]
        (some ⟨some "a", some "paris", none, none, []⟩)).structured.selected =
      (mkToolResult "paris" none SortKey.rating
        [⟨some "a", some "paris", none, none, []⟩]
        (some ⟨some "a", some "paris", none, none,
          []⟩)).structured.results.find? (idMatches "a") :=
  (claim_C4_selection [⟨some "a", some "paris", none, none, []⟩] "paris"
    none SortKey.rating "a" _ (by decide) rfl).1

/-- Claim C5 as stated is false at this input: for input city `"Paris"` the
structured city is `"Paris"` (only trimmed), not the trimmed-and-lower-cased
`"paris"`. -/
theorem claim_C5_counterexample :
    explore_stays [] "Paris" none SortKey.rating none =
      .ok (mkToolResult "Paris" none SortKey.rating [] none) ∧
    (mkToolResult "Paris" none SortKey.rating [] none).structured.city =
      "Paris" ∧
    pyLower (pyStrip "Paris") = "paris" ∧
    ("Paris" : String) ≠ "paris" :=
  ⟨rfl, rfl, rfl, by decide⟩

/-- Claim C5 (amended): the city echoed in the structured result is the
input city with surrounding whitespace trimmed — not lower-cased. -/
theorem claim_C5_city_echo (stays : List Stay) (city : String)
    (mr : Option ℚ) (sort : SortKey) (sid : Option String) (t : ToolResult)
    (h : explore_stays stays city mr sort sid = .ok t) :
    t.structured.city = pyStrip city :=
  (explore_ok_inv h).2.1

/-- Claim C5 (amended), instantiated at a concrete call. -/
theorem claim_C5_city_echo_witness :
    (mkToolResult " Paris " none SortKey.rating [] none).structured.city =
      pyStrip " Paris " :=
  claim_C5_city_echo [] " Paris " none SortKey.rating none _ rfl

/-- Claim C6 as stated is false at this input: of the two matching assets,
`a.js` is the most recent (mtime 10 > 5) with text `"newer"`, but the code
returns the lexicographically-last filename `b.js` with text `"older"`. -/
theorem claim_C6_counterexample :
    find_built_asset [⟨"a.js", 10, "newer"⟩, ⟨"b.js", 5, "older"⟩] ".js" =
      .ok "older" ∧
    find_built_asset_by_mtime
        [⟨"a.js", 10, "newer"⟩, ⟨"b.js", 5, "older"⟩] ".js" = .ok "newer" ∧
    ("older" : String) ≠ "newer" :=
  ⟨rfl, rfl, by decide⟩

/-- Claim C6 (amended): the lookup errors iff no asset file matches the
suffix, and otherwise returns the text of the matching asset whose FILENAME
is lexicographically last (not necessarily the most recently modified). -/
theorem claim_C6_asset_lookup (dir : List AssetFile) (suffix : String) :
    (find_built_asset dir suffix = .error .assetNotFound ↔
      ∀ f ∈ dir, strEnds f.name suffix = false) ∧
    (∀ c, find_built_asset dir suffix = .ok c →
      ∃ f ∈ dir, strEnds f.name suffix = true ∧ c = f.content ∧
        ∀ g ∈ dir, strEnds g.name suffix = true →
          strLE g.name f.name = true) := by
  constructor
  · cases hl : ((dir.filter (fun f => strEnds f.name suffix)).insertionSort
        assetNameLE).getLast? with
    | none =>
      have hnil : (dir.filter (fun f => strEnds f.name suffix)).insertionSort
          assetNameLE = [] := List.getLast?_eq_none_iff.mp hl
      have hfil : dir.filter (fun f => strEnds f.name suffix) = [] := by
        have hp := List.perm_insertionSort assetNameLE
          (dir.filter (fun f => strEnds f.name suffix))
        rw [hnil] at hp
        exact hp.symm.eq_nil
      have hforall : ∀ f ∈ dir, strEnds f.name suffix = false := by
        intro f hf
        simpa using List.filter_eq_nil_iff.mp hfil f hf
      refine iff_of_true ?_ hforall
      simp [find_built_asset, hl]
    | some f =>
      have hmem : f ∈ dir.filter (fun f => strEnds f.name suffix) :=
        (List.mem_insertionSort assetNameLE).mp
          (List.mem_of_getLast?_eq_some hl)
      constructor
      · intro habs
        simp [find_built_asset, hl] at habs
      · intro hall
        have h1 : strEnds f.name suffix = true := List.of_mem_filter
          (p := fun (f : AssetFile) => strEnds f.name suffix) hmem
        have h2 := hall f (List.mem_of_mem_filter hmem)
        rw [h2] at h1
        cases h1
  · intro c hc
    simp only [find_built_asset] at hc
    split at hc
    · cases hc
    · next f hl =>
      simp only [Except.ok.injEq] at hc
      have hmem : f ∈ dir.filter (fun f => strEnds f.name suffix) :=
        (List.mem_insertionSort assetNameLE).mp
          (List.mem_of_getLast?_eq_some hl)
      refine ⟨f, List.mem_of_mem_filter hmem,
        List.of_mem_filter (p := fun (f : AssetFile) => strEnds f.name suffix) hmem,
        hc.symm, ?_⟩
      intro g hg hgends
      have hgmem : g ∈ (dir.filter (fun f => strEnds f.name suffix)).insertionSort
          assetNameLE :=
        (List.mem_insertionSort assetNameLE).mpr
          (List.mem_filter.mpr ⟨hg, hgends⟩)
      exact pairwise_rel_getLast (R := assetNameLE)
        (fun a => charListLE_refl a.name.data)
        (List.sorted_insertionSort assetNameLE _) hl g hgmem

/-- Claim C6 (amended), instantiated: an empty directory yields the
asset-not-found error. -/
theorem claim_C6_asset_lookup_witness :
    find_built_asset [] ".js" = .error AssetErr.assetNotFound :=
  (claim_C6_asset_lookup [] ".js").1.mpr (by simp)

/-- Claim C7: the query is deterministic — two calls of `explore_stays` with
identical dataset and arguments yield equal outcomes (hence equal results,
selection, structured content and summary text). -/
theorem claim_C7_deterministic (stays : List Stay) (city : String)
    (mr : Option ℚ) (sort : SortKey) (sid : Option String)
    (parse : String → Option (List Stay)) (source : Option String) :
    explore_stays stays city mr sort sid =
      explore_stays stays city mr sort sid ∧
    explore_stays_full parse source city mr sort sid =
      explore_stays_full parse source city mr sort sid :=
  ⟨rfl, rfl⟩

/-- Claim C8: if the dataset source cannot be read (`source = none`) or not
parsed (`parse` returns `none`), the loader and the full query both fail
with `DataUnavailable` and produce no (partial) result; if the source is
readable and parses, the loader returns the full parsed record collection. -/
theorem claim_C8_load_failure (parse : String → Option (List Stay))
    (source : Option String) (city : String) (mr : Option ℚ) (sort : SortKey)
    (sid : Option String) :
    ((source = none ∨ ∃ txt, source = some txt ∧ parse txt = none) →
      load_stays parse source = .error .dataUnavailable ∧
      explore_stays_full parse source city mr sort sid =
        .error .dataUnavailable) ∧
    (∀ txt stays, source = some txt → parse txt = some stays →
      load_stays parse source = .ok stays) := by
  constructor
  · rintro (rfl | ⟨txt, rfl, hp⟩)
    · exact ⟨rfl, rfl⟩
    · constructor
      · simp [load_stays, hp]
      · simp [explore_stays_full, load_stays, hp]
  · rintro txt stays rfl hp
    simp [load_stays, hp]

/-- Claim C8, instantiated at a concrete unparsable source. -/
theorem claim_C8_load_failure_witness :
    load_stays (fun _ => none) (some "x") = .error Err.dataUnavailable ∧
    explore_stays_full (fun _ => none) (some "x") "paris" none
      SortKey.rating none = .error Err.dataUnavailable :=
  (claim_C8_load_failure (fun _ => none) (some "x") "paris" none
    SortKey.rating none).1 (Or.inr ⟨"x", rfl, rfl⟩)

/-- Claim C9: an empty-string `selected_id` behaves exactly like an absent
one — the whole call is equal to the call with `selected_id = None`, and the
selection is absent whenever the call succeeds, for every dataset. -/
theorem claim_C9_empty_selected_id (stays : List Stay) (city : String)
    (mr : Option ℚ) (sort : SortKey) :
    explore_stays stays city mr sort (some "") =
      explore_stays stays city mr sort none ∧
    (∀ t, explore_stays stays city mr sort (some "") = .ok t →
      t.structured.selected = none) :=
  ⟨rfl, fun _ ht => explore_ok_selected_none ht⟩

/-- Claim C9, instantiated: even when a filtered record has id `""`, the
selection is absent. -/
theorem claim_C9_empty_selected_id_witness :
    (mkToolResult "paris" none SortKey.rating
      [⟨some "", some "paris", none, none, []⟩] none).structured.selected =
      none :=
  (claim_C9_empty_selected_id [⟨some "", some "paris", none, none, []⟩]
    "paris" none SortKey.rating).2 _ rfl

/-- Claim C10: a record without a `city` field makes the whole query fail
with the key error for every input (it is never silently skipped); and under
the precondition that every record has a city field — and that, whenever
`selected_id` is supplied, every record of the filtered (post-`min_rating`,
post-sort) results has an id field — the query always succeeds. -/
theorem claim_C10_missing_fields (stays : List Stay) (city : String)
    (mr : Option ℚ) (sort : SortKey) (sid : Option String) :
    ((∃ s ∈ stays, s.city = none) →
      explore_stays stays city mr sort sid = .error .keyError) ∧
    ((∀ s ∈ stays, s.city ≠ none) →
      (∀ i, sid = some i →
        ∀ s ∈ sortStays sort (applyMinRating mr
          (stays.filter (cityMatches (pyLower (pyStrip city))))),
          s.id ≠ none) →
      ∃ t, explore_stays stays city mr sort sid = .ok t) := by
  constructor
  · rintro ⟨s, hs, hnone⟩
    have hc := @cityFilter_error_of_mem (pyLower (pyStrip city)) stays s hs hnone
    simp [explore_stays, hc]
  · exact explore_ok_of_wf

/-- Claim C10, instantiated: a record lacking `city` makes the query error;
and a dataset whose only record has no id — but is dropped by the rating
filter before the selection scan — still succeeds with `selected_id`
supplied, the id precondition holding vacuously over the filtered results. -/
theorem claim_C10_missing_fields_witness :
    explore_stays [⟨some "a", none, none, none, []⟩] "paris" none
      SortKey.rating none = .error Err.keyError ∧
    ∃ t, explore_stays [⟨none, some "paris", some 1, none, []⟩] "paris"
      (some 5) SortKey.rating (some "x") = .ok t :=
  ⟨(claim_C10_missing_fields [⟨some "a", none, none, none, []⟩] "paris" none
      SortKey.rating none).1 ⟨_, List.mem_cons_self _ _, rfl⟩,
   (claim_C10_missing_fields [⟨none, some "paris", some 1, none, []⟩]
      "paris" (some 5) SortKey.rating (some "x")).2 (by decide)
      (fun i _ => by decide)⟩

end HotelStay
